import Mathlib

/-!
Verification of the credential-custody, signing and scheduling subsystem of
the AutonomousVault supabase template, against a shallow embedding of:

* the SQL migration defining the cron_schedules table and its helper
  functions (get_due_schedules, record_schedule_success,
  record_schedule_error),
* the SQL migration defining execution_sessions and get_active_session,
* the edge-function modules execution-session.ts (tiered password
  resolution and session-token decoding), hyperliquid-adapter.ts
  (action hashing, EIP-712 phantom-agent signing, executeTrade) and
  cron-trigger/index.ts (the schedule orchestrator).

Timestamps are modelled as natural numbers, uuids as naturals, byte strings
as lists of naturals below 256; SQL tables are lists of row structures and
an UPDATE is a map over the rows.  External cryptographic primitives that
the code calls but does not define (AES-GCM decryption, JSON parsing,
EIP-712 signing) are parameters of the embedding; Keccak-256 and the
MessagePack encoding are embedded concretely since the action-hash layout
depends on their byte-level output.
-/

namespace AV

/-- Timestamps (seconds) are modelled as naturals. -/
abbrev Time := Nat

/-! ## cron_schedules (migration 20240101000002_cron_schedules.sql) -/

/-- Row of the cron_schedules table. -/
structure ScheduleRow where
  id : Nat
  user_id : Nat
  schedule_name : String
  enabled : Bool
  interval_seconds : Nat
  coins : List String
  last_run_at : Option Time
  next_run_at : Option Time
  run_count : Nat
  last_error : Option String
  consecutive_errors : Nat
  max_consecutive_errors : Nat
  created_at : Time
  updated_at : Time
deriving Repr, DecidableEq

/-- Row built from the column defaults of the CREATE TABLE statement:
schedule_name 'default', enabled false, interval_seconds 300, coins empty,
run_count 0, consecutive_errors 0, max_consecutive_errors 5, timestamps NOW().
Only id and user_id have no default. -/
def mkScheduleRow (id user_id : Nat) (now : Time) : ScheduleRow :=
  { id := id
    user_id := user_id
    schedule_name := "default"
    enabled := false
    interval_seconds := 300
    coins := []
    last_run_at := none
    next_run_at := none
    run_count := 0
    last_error := none
    consecutive_errors := 0
    max_consecutive_errors := 5
    created_at := now
    updated_at := now }

/-- WHERE clause of get_due_schedules: enabled = true AND
consecutive_errors < max_consecutive_errors AND
(next_run_at IS NULL OR next_run_at <= NOW()). -/
def isDue (now : Time) (cs : ScheduleRow) : Bool :=
  cs.enabled && decide (cs.consecutive_errors < cs.max_consecutive_errors) &&
    (match cs.next_run_at with
     | none => true
     | some t => decide (t ≤ now))

/-- Return row of get_due_schedules (schedule_id, user_id, coins, interval_seconds). -/
structure DueScheduleRow where
  schedule_id : Nat
  user_id : Nat
  coins : List String
  interval_seconds : Nat
deriving Repr, DecidableEq

/-- SELECT list of get_due_schedules. -/
def dueProjection (cs : ScheduleRow) : DueScheduleRow :=
  { schedule_id := cs.id
    user_id := cs.user_id
    coins := cs.coins
    interval_seconds := cs.interval_seconds }

/-- SQL function get_due_schedules: SELECT the projection of every row
satisfying the due WHERE clause.  It performs no UPDATE. -/
def get_due_schedules (now : Time) (db : List ScheduleRow) : List DueScheduleRow :=
  (db.filter (isDue now)).map dueProjection

/-- Row update performed by record_schedule_success on the matched row:
last_run_at = NOW(), next_run_at = NOW() + interval_seconds,
run_count = run_count + 1, consecutive_errors = 0, last_error = NULL,
updated_at = NOW(). -/
def successUpdate (now : Time) (cs : ScheduleRow) : ScheduleRow :=
  { cs with
    last_run_at := some now
    next_run_at := some (now + cs.interval_seconds)
    run_count := cs.run_count + 1
    consecutive_errors := 0
    last_error := none
    updated_at := now }

/-- SQL function record_schedule_success: UPDATE the row WHERE id = p_schedule_id. -/
def record_schedule_success (now : Time) (sid : Nat) (db : List ScheduleRow) :
    List ScheduleRow :=
  db.map (fun cs => if cs.id = sid then successUpdate now cs else cs)

/-- Row update performed by record_schedule_error on the matched row:
last_error = p_error, consecutive_errors = consecutive_errors + 1,
enabled = CASE WHEN consecutive_errors + 1 >= max_consecutive_errors THEN false
ELSE enabled END, next_run_at = NOW() + interval_seconds, updated_at = NOW().
All right-hand sides read the pre-update row, per SQL UPDATE semantics. -/
def errorUpdate (now : Time) (msg : String) (cs : ScheduleRow) : ScheduleRow :=
  { cs with
    last_error := some msg
    consecutive_errors := cs.consecutive_errors + 1
    enabled :=
      if cs.max_consecutive_errors ≤ cs.consecutive_errors + 1 then false
      else cs.enabled
    next_run_at := some (now + cs.interval_seconds)
    updated_at := now }

/-- SQL function record_schedule_error: UPDATE the row WHERE id = p_schedule_id. -/
def record_schedule_error (now : Time) (sid : Nat) (msg : String)
    (db : List ScheduleRow) : List ScheduleRow :=
  db.map (fun cs => if cs.id = sid then errorUpdate now msg cs else cs)

/-- Server-side operations on the cron_schedules table exposed by the
migration: the due query and the two outcome recorders. -/
inductive ServerOp where
  | getDue (now : Time)
  | recordSuccess (now : Time) (sid : Nat)
  | recordError (now : Time) (sid : Nat) (msg : String)
deriving Repr, DecidableEq

/-- Effect of each server-side operation on the table.  get_due_schedules is
a pure SELECT and leaves the table unchanged. -/
def applyOp : ServerOp → List ScheduleRow → List ScheduleRow
  | .getDue _, db => db
  | .recordSuccess now sid, db => record_schedule_success now sid db
  | .recordError now sid msg, db => record_schedule_error now sid msg db

/-- Sequence of k consecutive record_schedule_error row updates applied to a
single schedule row, with per-call timestamps and messages. -/
def errSeq (times : Nat → Time) (msgs : Nat → String) (cs : ScheduleRow) :
    Nat → ScheduleRow
  | 0 => cs
  | k + 1 => errorUpdate (times k) (msgs k) (errSeq times msgs cs k)

/-- Concrete enabled schedule row used by witnesses. -/
def exRowEnabled : ScheduleRow :=
  { mkScheduleRow 1 2 0 with enabled := true }

/-- Concrete enabled schedule row with max_consecutive_errors = 3, used by witnesses. -/
def exRow3 : ScheduleRow :=
  { mkScheduleRow 1 2 0 with enabled := true, max_consecutive_errors := 3 }

/-- Identity timestamp sequence, used by witnesses. -/
def wTimes (i : Nat) : Time := i

/-- Constant message sequence, used by witnesses. -/
def wMsgs (_ : Nat) : String := "boom"

/-! ## execution_sessions (migration 20240101000004_execution_sessions.sql) -/

/-- Row of the execution_sessions table.  The encrypted_session_token TEXT
column holds base64; it is modelled by its base64-decoded byte list. -/
structure SessionRow where
  id : Nat
  user_id : Nat
  encrypted_session_token : List Nat
  created_at : Time
  expires_at : Time
  revoked : Bool
  last_used_at : Option Time
  use_count : Nat
deriving Repr, DecidableEq

/-- Return row of get_active_session (session_id, encrypted_session_token,
expires_at). -/
structure ActiveSessionRow where
  session_id : Nat
  encrypted_session_token : List Nat
  expires_at : Time
deriving Repr, DecidableEq

/-- SELECT list of get_active_session. -/
def sessionProjection (s : SessionRow) : ActiveSessionRow :=
  { session_id := s.id
    encrypted_session_token := s.encrypted_session_token
    expires_at := s.expires_at }

/-- WHERE clause of get_active_session: user_id = p_user_id AND
revoked = false AND expires_at > NOW(). -/
def isActiveFor (now : Time) (uid : Nat) (s : SessionRow) : Bool :=
  decide (s.user_id = uid) && !s.revoked && decide (now < s.expires_at)

/-- Choice between the head row and the best row seen so far, by expires_at. -/
def pickBetter (s : SessionRow) : Option SessionRow → SessionRow
  | none => s
  | some b => if b.expires_at ≤ s.expires_at then s else b

/-- ORDER BY expires_at DESC LIMIT 1: select a row whose expires_at is
maximal among the candidates. -/
def pickLatest : List SessionRow → Option SessionRow
  | [] => none
  | s :: rest => some (pickBetter s (pickLatest rest))

/-- SQL function get_active_session. -/
def get_active_session (now : Time) (uid : Nat) (db : List SessionRow) :
    Option ActiveSessionRow :=
  (pickLatest (db.filter (isActiveFor now uid))).map sessionProjection

/-- SQL function record_session_usage: last_used_at = NOW(),
use_count = use_count + 1 WHERE id = p_session_id. -/
def record_session_usage (now : Time) (sid : Nat) (db : List SessionRow) :
    List SessionRow :=
  db.map (fun s =>
    if s.id = sid then { s with last_used_at := some now, use_count := s.use_count + 1 }
    else s)

/-- revokeSession (execution-session.ts): UPDATE execution_sessions
SET revoked = true WHERE id = sessionId. -/
def revokeSession (sid : Nat) (db : List SessionRow) : List SessionRow :=
  db.map (fun s => if s.id = sid then { s with revoked := true } else s)

/-! ## execution-session.ts -/

/-- Decoded session payload {userId, password, expiresAt}. -/
structure SessionPayload where
  userId : Nat
  password : String
  expiresAt : Time
deriving Repr, DecidableEq

/-- Result of validateExecutionSession; optional TS fields become Option. -/
structure SessionValidationResult where
  valid : Bool
  password : Option String
  error : Option String
  sessionId : Option Nat
deriving Repr, DecidableEq

/-- Credential tier of getExecutionPassword ('session' | 'persistent' | 'none'). -/
inductive Tier where
  | session
  | persistent
  | noTier
deriving Repr, DecidableEq

/-- Result of getExecutionPassword. -/
structure ExecPasswordResult where
  password : Option String
  tier : Tier
  error : Option String
deriving Repr, DecidableEq

/-- External primitives and state read by execution-session.ts: AES-GCM
decryption (key, iv, ciphertext), JSON parsing of the decrypted payload,
decryptStoredPassword's server-secret decryption (its input TEXT is modelled
by its base64-decoded bytes), the execution_sessions table, whether the
get_active_session RPC errors, the encrypted_keys query result for
(user_id, 'hyperliquid') — none for a query error, some none for a row whose
encrypted_password is NULL — and the clock. -/
structure CustodianEnv where
  aesDecrypt : List Nat → List Nat → List Nat → Option (List Nat)
  parsePayload : List Nat → Option SessionPayload
  decryptStoredPassword : List Nat → Option String
  sessionDb : List SessionRow
  sessionRpcError : Bool
  keyQuery : Option (Option (List Nat))
  now : Time

/-- JS truthiness of an optional string (absent or empty is falsy). -/
def strTruthy : Option String → Bool
  | none => false
  | some s => decide (s ≠ "")

/-- decryptSessionToken: split the base64-decoded token bytes as
IV (first 12 bytes) + ciphertext + key (last 32 bytes) — Uint8Array.slice
clamps at the ends, which Nat truncated subtraction mirrors — then decrypt
the ciphertext with the embedded key and iv and parse the JSON payload.
Returns null on any decryption failure. -/
def decryptSessionToken (env : CustodianEnv) (combined : List Nat) :
    Option SessionPayload :=
  let iv := combined.take 12
  let keyBytes := combined.drop (combined.length - 32)
  let ciphertext := (combined.take (combined.length - 32)).drop 12
  match env.aesDecrypt keyBytes iv ciphertext with
  | none => none
  | some pt => env.parsePayload pt

/-- validateExecutionSession: look up the active session, re-check expiry,
decrypt the token, and verify the decoded userId matches the requested one.
The record_session_usage side effect does not alter the returned value and
is not modelled here. -/
def validateExecutionSession (env : CustodianEnv) (userId : Nat) :
    SessionValidationResult :=
  if env.sessionRpcError then
    { valid := false, password := none,
      error := some "Failed to check session", sessionId := none }
  else
    match get_active_session env.now userId env.sessionDb with
    | none =>
        { valid := false, password := none,
          error := some "No active session found", sessionId := none }
    | some session =>
        if session.expires_at < env.now then
          { valid := false, password := none,
            error := some "Session expired", sessionId := none }
        else
          match decryptSessionToken env session.encrypted_session_token with
          | none =>
              { valid := false, password := none,
                error := some "Failed to decrypt session", sessionId := none }
          | some payload =>
              if payload.userId ≠ userId then
                { valid := false, password := none,
                  error := some "Session user mismatch", sessionId := none }
              else
                { valid := true, password := some payload.password,
                  error := none, sessionId := some session.session_id }

/-- Tier C resolution inside getExecutionPassword: the stored
encrypted_password is used only when the key query succeeded, the field is
non-NULL and truthy, and decryptStoredPassword returns a truthy password
(JS truthiness: empty strings and empty byte strings are falsy). -/
def tierCPassword (env : CustodianEnv) : Option String :=
  match env.keyQuery with
  | some (some ep) =>
      if ep.isEmpty then none
      else
        match env.decryptStoredPassword ep with
        | some pw => if pw = "" then none else some pw
        | none => none
  | _ => none

/-- getExecutionPassword: try Tier C (persistent stored password) first,
then Tier B (session), else no credential. -/
def getExecutionPassword (env : CustodianEnv) (userId : Nat) :
    ExecPasswordResult :=
  match tierCPassword env with
  | some pw => { password := some pw, tier := .persistent, error := none }
  | none =>
      let s := validateExecutionSession env userId
      if s.valid && strTruthy s.password then
        { password := s.password, tier := .session, error := none }
      else
        { password := none, tier := .noTier,
          error := some (match s.error with
            | some e => if e = "" then "No valid session or stored password" else e
            | none => "No valid session or stored password") }

/-- Concrete session row used by witnesses. -/
def wSessionRow : SessionRow :=
  { id := 9
    user_id := 1
    encrypted_session_token := List.replicate 12 0 ++ [1, 2, 3] ++ List.replicate 32 5
    created_at := 0
    expires_at := 100
    revoked := false
    last_used_at := none
    use_count := 0 }

/-- Concrete session row with a later expiry, used by witnesses. -/
def wSessionRow2 : SessionRow :=
  { wSessionRow with id := 10, expires_at := 200 }

/-- Concrete custodian environment used by witnesses: both a decryptable
Tier C password and a valid Tier B session exist. -/
def wCustEnv : CustodianEnv :=
  { aesDecrypt := fun _ _ _ => some [7]
    parsePayload := fun _ => some { userId := 1, password := "pb", expiresAt := 100 }
    decryptStoredPassword := fun _ => some "pc"
    sessionDb := [wSessionRow]
    sessionRpcError := false
    keyQuery := some (some [1])
    now := 10 }

/-! ## cron-trigger/index.ts -/

/-- Row of the encrypted_keys table read by executeSchedule
(encrypted_blob, encryption_salt), both base64 TEXT modelled as decoded
bytes. -/
structure EncryptedKeyRecord where
  encrypted_blob : List Nat
  encryption_salt : List Nat
deriving Repr, DecidableEq

/-- Observable operation performed while handling a cron trigger.
fetchDueSchedules is the get_due_schedules RPC; fetchKey and fetchSettings
are the per-user table reads; resolvePassword stands for a call to
getExecutionPassword (the session custodian) and invokeCycleExecutor for a
call to the external dealer-cycle function — the vocabulary includes them so
that their absence from executeSchedule's trace is expressible;
runAnalysisStub is the internal runAnalysisOnly call; recordSuccess and
recordError are the outcome RPCs. -/
inductive CronEvent where
  | fetchDueSchedules
  | fetchKey (uid : Nat)
  | fetchSettings (uid : Nat)
  | resolvePassword (uid : Nat)
  | invokeCycleExecutor (uid : Nat)
  | runAnalysisStub (uid : Nat) (coins : List String)
  | recordSuccess (sid : Nat)
  | recordError (sid : Nat) (msg : String)
deriving Repr, DecidableEq

/-- Per-schedule result entry built by executeSchedule (executedAt is the
ISO timestamp, modelled by the clock value). -/
structure ExecutionResult where
  scheduleId : Nat
  userId : Nat
  success : Bool
  error : Option String
  executedAt : Time
deriving Repr, DecidableEq

/-- Decision entry returned by the runAnalysisOnly stub. -/
structure AnalysisDecision where
  coin : String
  action : String
  reason : String
deriving Repr, DecidableEq

/-- Value returned by the runAnalysisOnly stub. -/
structure AnalysisResult where
  analyzed : Nat
  decisions : List AnalysisDecision
deriving Repr, DecidableEq

/-- runAnalysisOnly: analysis-only stub returning HOLD for every coin. -/
def runAnalysisOnly (coins : List String) : AnalysisResult :=
  { analyzed := coins.length
    decisions := coins.map (fun coin =>
      { coin := coin, action := "HOLD", reason := "Analysis only mode" }) }

/-- Environment read by the cron-trigger function: the x-cron-secret header,
the CRON_SECRET environment variable, the cron_schedules table, the
encrypted_keys lookup per user, whether a user_settings row exists, and the
clock. -/
structure CronEnv where
  cronSecretHeader : Option String
  expectedSecret : Option String
  scheduleDb : List ScheduleRow
  keyLookup : Nat → Option EncryptedKeyRecord
  settingsLookup : Nat → Option Unit
  now : Time

/-- Trigger authentication: the header must be present, truthy, and equal to
the configured secret (an unset CRON_SECRET never equals a present header). -/
def cronAuthOk (env : CronEnv) : Bool :=
  match env.cronSecretHeader with
  | none => false
  | some s =>
      decide (s ≠ "") &&
        (match env.expectedSecret with
         | some e => decide (s = e)
         | none => false)

/-- executeSchedule: fetch the user's encrypted key (a missing key throws
'No encrypted key found for user', caught and recorded as a schedule error),
fetch the user's settings (a missing row only logs a warning), run the
analysis-only stub, and record success.  The returned trace lists the
operations performed, in order. -/
def executeSchedule (env : CronEnv) (schedule : DueScheduleRow) :
    ExecutionResult × List CronEvent :=
  match env.keyLookup schedule.user_id with
  | none =>
      ({ scheduleId := schedule.schedule_id, userId := schedule.user_id,
         success := false,
         error := some "No encrypted key found for user", executedAt := env.now },
       [.fetchKey schedule.user_id,
        .recordError schedule.schedule_id "No encrypted key found for user"])
  | some _ =>
      ({ scheduleId := schedule.schedule_id, userId := schedule.user_id,
         success := true, error := none, executedAt := env.now },
       [.fetchKey schedule.user_id, .fetchSettings schedule.user_id,
        .runAnalysisStub schedule.user_id schedule.coins,
        .recordSuccess schedule.schedule_id])

/-- Response of the cron-trigger handler. -/
inductive TriggerResponse where
  | unauthorized
  | noSchedulesDue
  | executed (results : List ExecutionResult)
deriving Repr, DecidableEq

/-- cron-trigger handler: authenticate with the shared secret, fetch the due
schedules once, and execute each in order. -/
def cronTrigger (env : CronEnv) : TriggerResponse × List CronEvent :=
  if cronAuthOk env then
    let due := get_due_schedules env.now env.scheduleDb
    if due.isEmpty then (.noSchedulesDue, [.fetchDueSchedules])
    else
      let runs := due.map (executeSchedule env)
      (.executed (runs.map Prod.fst),
       .fetchDueSchedules :: (runs.map Prod.snd).flatten)
  else (.unauthorized, [])

/-- Concrete cron environment used by witnesses and counterexamples: the
secret matches, one enabled schedule is due, and the user has an encrypted
key on file. -/
def wCronEnv : CronEnv :=
  { cronSecretHeader := some "s3"
    expectedSecret := some "s3"
    scheduleDb := [exRowEnabled]
    keyLookup := fun _ => some { encrypted_blob := [1], encryption_salt := [2] }
    settingsLookup := fun _ => none
    now := 50 }

/-! ## hyperliquid-adapter.ts: Keccak-256 (as ethers.keccak256) -/

/-- Rotate a 64-bit lane left by k bits. -/
def rotl64 (x k : Nat) : Nat :=
  ((x <<< k) ||| (x >>> (64 - k))) % 2 ^ 64

/-- Keccak round constants. -/
def keccakRC : List Nat :=
  [0x0000000000000001, 0x0000000000008082, 0x800000000000808a, 0x8000000080008000,
   0x000000000000808b, 0x0000000080000001, 0x8000000080008081, 0x8000000000008009,
   0x000000000000008a, 0x0000000000000088, 0x0000000080008009, 0x000000008000000a,
   0x000000008000808b, 0x800000000000008b, 0x8000000000008089, 0x8000000000008003,
   0x8000000000008002, 0x8000000000000080, 0x000000000000800a, 0x800000008000000a,
   0x8000000080008081, 0x8000000000008080, 0x0000000080000001, 0x8000000080008008]

/-- Walk of the pi orbit from lane (1, 0) generating the rho rotation
offsets: at step t the visited lane x + 5 * y gets offset
(t + 1)(t + 2) / 2 mod 64, and (x, y) moves to (y, (2x + 3y) mod 5). -/
def rhoWalk (x y t fuel : Nat) : List (Nat × Nat) :=
  match fuel with
  | 0 => []
  | f + 1 =>
      (x + 5 * y, (t + 1) * (t + 2) / 2 % 64) ::
        rhoWalk y ((2 * x + 3 * y) % 5) (t + 1) f

/-- Rho rotation offsets, indexed by lane position x + 5 * y (lane 0 stays
unrotated; the other 24 lanes take their offset from the orbit walk). -/
def rhoOffsets : List Nat :=
  (List.range 25).map (fun i =>
    if i = 0 then 0 else ((rhoWalk 1 0 0 24).lookup i).getD 0)

/-- Theta step of the Keccak permutation on a 25-lane state. -/
def thetaStep (s : List Nat) : List Nat :=
  let c := fun x => (s.getD x 0) ^^^ (s.getD (x + 5) 0) ^^^ (s.getD (x + 10) 0) ^^^
      (s.getD (x + 15) 0) ^^^ (s.getD (x + 20) 0)
  let d := fun x => (c ((x + 4) % 5)) ^^^ rotl64 (c ((x + 1) % 5)) 1
  (List.range 25).map (fun i => (s.getD i 0) ^^^ d (i % 5))

/-- Source lane feeding destination lane j under the pi permutation. -/
def piSource (j : Nat) : Nat :=
  ((3 * (j / 5) + j % 5) % 5) + 5 * (j % 5)

/-- Combined rho and pi steps. -/
def rhoPiStep (s : List Nat) : List Nat :=
  (List.range 25).map (fun j =>
    rotl64 (s.getD (piSource j) 0) (rhoOffsets.getD (piSource j) 0))

/-- Chi step. -/
def chiStep (b : List Nat) : List Nat :=
  (List.range 25).map (fun j =>
    let x := j % 5
    let y := j / 5
    (b.getD j 0) ^^^
      (((b.getD ((x + 1) % 5 + 5 * y) 0) ^^^ (2 ^ 64 - 1)) &&&
        (b.getD ((x + 2) % 5 + 5 * y) 0)))

/-- One Keccak round (theta, rho, pi, chi, iota). -/
def keccakRound (s : List Nat) (rc : Nat) : List Nat :=
  let t := chiStep (rhoPiStep (thetaStep s))
  (List.range 25).map (fun j => if j = 0 then (t.getD 0 0) ^^^ rc else t.getD j 0)

/-- Keccak-f[1600] permutation. -/
def keccakF (s : List Nat) : List Nat :=
  keccakRC.foldl keccakRound s

/-- Little-endian byte list to 64-bit lane. -/
def bytesToLane (bs : List Nat) : Nat :=
  bs.foldr (fun b acc => acc * 256 + b) 0

/-- 64-bit lane to little-endian byte list. -/
def laneToBytes (v : Nat) : List Nat :=
  (List.range 8).map (fun j => v / 256 ^ j % 256)

/-- Original Keccak multi-rate padding (0x01 domain byte, rate 136). -/
def keccakPad (m : List Nat) : List Nat :=
  let k := (136 - (m.length + 1) % 136) % 136
  let p := m ++ 0x01 :: List.replicate k 0
  p.dropLast ++ [p.getLastD 0 ||| 0x80]

/-- Absorb one 136-byte block into the state. -/
def absorbBlock (s : List Nat) (block : List Nat) : List Nat :=
  keccakF ((List.range 25).map (fun i =>
    (s.getD i 0) ^^^ bytesToLane ((block.drop (8 * i)).take 8)))

/-- Keccak-256 of a byte list, as computed by ethers.keccak256 (validated
against the standard test vectors for the empty, short and multi-block
inputs). -/
def keccak256 (m : List Nat) : List Nat :=
  let p := keccakPad m
  let s := (List.range (p.length / 136)).foldl
      (fun st i => absorbBlock st ((p.drop (136 * i)).take 136))
      (List.replicate 25 0)
  ((List.range 4).map (fun i => laneToBytes (s.getD i 0))).flatten

/-! ## hyperliquid-adapter.ts: MessagePack encoding (msgpack-lite) -/

/-- MessagePack value universe covering the JSON-like actions the adapter
serializes: null, booleans, non-negative integers, UTF-8 strings (as byte
lists), arrays, and maps in insertion order. -/
inductive MPValue where
  | nil
  | bool (b : Bool)
  | uint (n : Nat)
  | str (s : List Nat)
  | arr (xs : List MPValue)
  | map (kvs : List (List Nat × MPValue))

/-- Big-endian byte encoding of n in w bytes (Buffer.writeBigUInt64BE with
w = 8; the Buffer API throws outside [0, 2^64), so callers pass smaller
values). -/
def beBytes : Nat → Nat → List Nat
  | 0, _ => []
  | w + 1, n => beBytes w (n / 256) ++ [n % 256]

/-- MessagePack string header for a byte length (fixstr / str8 / str16 /
str32). -/
def strHeader (len : Nat) : List Nat :=
  if len < 32 then [0xa0 + len]
  else if len < 0x100 then [0xd9, len]
  else if len < 0x10000 then 0xda :: beBytes 2 len
  else 0xdb :: beBytes 4 len

mutual

/-- MessagePack encoding of a value (msgpack-lite's deterministic output for
this universe: format headers followed by big-endian lengths and payloads,
map entries in insertion order). -/
def msgpackEncode : MPValue → List Nat
  | .nil => [0xc0]
  | .bool false => [0xc2]
  | .bool true => [0xc3]
  | .uint n =>
      if n < 0x80 then [n]
      else if n < 0x100 then [0xcc, n]
      else if n < 0x10000 then 0xcd :: beBytes 2 n
      else if n < 0x100000000 then 0xce :: beBytes 4 n
      else 0xcf :: beBytes 8 n
  | .str s => strHeader s.length ++ s
  | .arr xs =>
      (if xs.length < 16 then [0x90 + xs.length]
       else if xs.length < 0x10000 then 0xdc :: beBytes 2 xs.length
       else 0xdd :: beBytes 4 xs.length) ++ encodeArr xs
  | .map kvs =>
      (if kvs.length < 16 then [0x80 + kvs.length]
       else if kvs.length < 0x10000 then 0xde :: beBytes 2 kvs.length
       else 0xdf :: beBytes 4 kvs.length) ++ encodeMap kvs

/-- Concatenated encodings of array elements. -/
def encodeArr : List MPValue → List Nat
  | [] => []
  | x :: xs => msgpackEncode x ++ encodeArr xs

/-- Concatenated encodings of map entries (string key, then value). -/
def encodeMap : List (List Nat × MPValue) → List Nat
  | [] => []
  | (k, v) :: kvs => (strHeader k.length ++ k) ++ msgpackEncode v ++ encodeMap kvs

end

/-! ## hyperliquid-adapter.ts: action hashing, signing, executeTrade -/

/-- Byte string built by actionHashFn before hashing: msgpack(action),
then the nonce as 8 big-endian bytes, then a single 0x00 byte — the
vaultAddress branch of the source is an explicit placeholder that also
appends 0x00. -/
def actionHashData (action : MPValue) (vaultAddress : Option (List Nat))
    (nonce : Nat) : List Nat :=
  let data := msgpackEncode action ++ beBytes 8 nonce
  match vaultAddress with
  | none => data ++ [0x00]
  | some _ => data ++ [0x00]

/-- actionHashFn: Keccak-256 of the serialized action, nonce and vault
marker byte. -/
def actionHashFn (action : MPValue) (vaultAddress : Option (List Nat))
    (nonce : Nat) : List Nat :=
  keccak256 (actionHashData action vaultAddress nonce)

/-- Phantom agent structure signed as EIP-712 typed data. -/
structure PhantomAgent where
  source : String
  connectionId : List Nat
deriving Repr, DecidableEq

/-- EIP-712 domain parameters. -/
structure EIP712Domain where
  name : String
  version : String
  chainId : Nat
  verifyingContract : String
deriving Repr, DecidableEq

/-- Fixed signing domain of signL1Action. -/
def hlDomain : EIP712Domain :=
  { name := "Exchange", version := "1", chainId := 1337,
    verifyingContract := "0x0000000000000000000000000000000000000000" }

/-- Signature components extracted from the typed-data signature. -/
structure RsvSignature where
  r : String
  s : String
  v : Nat
deriving Repr, DecidableEq

/-- signL1Action: hash the action, build the phantom agent
{source := 'b' (testnet), connectionId := hash}, and sign it under the fixed
domain.  wallet.signTypedData is the abstract signer parameter; it may
throw. -/
def signL1Action (signTypedData : EIP712Domain → PhantomAgent → Except String RsvSignature)
    (action : MPValue) (vaultAddress : Option (List Nat)) (nonce : Nat) :
    Except String RsvSignature :=
  signTypedData hlDomain
    { source := "b", connectionId := actionHashFn action vaultAddress nonce }

/-- getAssetIndex: hardcoded map {BTC 0, ETH 1, SOL 4}; otherwise the meta
fetch, abstracted as metaLookup — none when the coin is absent or the fetch
fails, which the source maps to -1. -/
def getAssetIndex (metaLookup : String → Option Nat) (coin : String) : Int :=
  if coin = "BTC" then 0
  else if coin = "ETH" then 1
  else if coin = "SOL" then 4
  else
    match metaLookup coin with
    | some i => Int.ofNat i
    | none => -1

/-- UTF-8 bytes of a string (ASCII in all the action fields). -/
def strBytes (s : String) : List Nat :=
  s.toUTF8.toList.map (fun b => b.toNat)

/-- Options argument of executeTrade (only reduceOnly and cloid are read). -/
structure OrderOptions where
  orderType : Option String
  price : Option String
  reduceOnly : Option Bool
  cloid : Option String
deriving Repr, DecidableEq

/-- Order action built by executeTrade: price and size arrive as
already-formatted wire strings (floatToWire's float-to-decimal-string
formatting is outside the model); an absent cloid is encoded as nil. -/
def orderActionValue (assetIndex : Nat) (isBuy : Bool)
    (priceStr sizeStr : String) (reduceOnly : Bool) (cloid : Option String) :
    MPValue :=
  .map
    [(strBytes "type", .str (strBytes "order")),
     (strBytes "orders", .arr
        [.map
          [(strBytes "a", .uint assetIndex),
           (strBytes "b", .bool isBuy),
           (strBytes "p", .str (strBytes priceStr)),
           (strBytes "s", .str (strBytes sizeStr)),
           (strBytes "r", .bool reduceOnly),
           (strBytes "t", .map [(strBytes "limit",
              .map [(strBytes "tif", .str (strBytes "Gtc"))])]),
           (strBytes "c", match cloid with
             | some c => .str (strBytes c)
             | none => .nil)]]),
     (strBytes "grouping", .str (strBytes "na"))]

/-- First entry of data.response?.data?.statuses in the exchange reply. -/
structure OrderStatus where
  error : Option String
  restingOid : Option Nat
deriving Repr, DecidableEq

/-- Exchange HTTP reply as read by executeTrade: the transport-level ok flag,
status code and raw text, and the parsed JSON fields it accesses. -/
structure ExchangeResponse where
  ok : Bool
  status : Nat
  text : String
  respStatus : String
  statuses0 : Option OrderStatus
  responseMsg : Option String
deriving Repr, DecidableEq

/-- Result type of executeTrade (filledSize and filledPrice are declared by
the source but never set). -/
structure TradeResult where
  success : Bool
  orderId : Option String := none
  error : Option String := none
  filledSize : Option Nat := none
  filledPrice : Option Nat := none
deriving Repr, DecidableEq

/-- Environment of executeTrade: the meta fetch used by getAssetIndex, the
wallet's typed-data signer, the order-endpoint HTTP exchange (Except.error
is a thrown network failure), and Date.now() used as the nonce. -/
structure ExecEnv where
  metaLookup : String → Option Nat
  signTypedData : EIP712Domain → PhantomAgent → Except String RsvSignature
  fetch : Except String ExchangeResponse
  now : Nat

/-- Order id reported on success: the resting order id if present, else
'filled'. -/
def wireOrderId (resp : ExchangeResponse) : String :=
  match resp.statuses0 with
  | some st =>
      match st.restingOid with
      | some oid => toString oid
      | none => "filled"
  | none => "filled"

/-- Try-block body of executeTrade as an Except computation; Except.error
is a thrown JS exception.  Mirrors the source: resolve the asset index
(-1 throws), build and sign the action (vaultAddress null), POST, throw on a
non-2xx response, then map the response-level status. -/
def executeTradeE (env : ExecEnv) (coin : String) (isBuy : Bool)
    (sizeStr priceStr : String) (opts : OrderOptions) :
    Except String TradeResult :=
  if getAssetIndex env.metaLookup coin = -1 then
    .error ("Asset " ++ coin ++ " not found")
  else
    match signL1Action env.signTypedData
        (orderActionValue (getAssetIndex env.metaLookup coin).toNat isBuy
          priceStr sizeStr (opts.reduceOnly.getD false) opts.cloid)
        none env.now with
    | .error m => .error m
    | .ok _sig =>
        match env.fetch with
        | .error m => .error m
        | .ok resp =>
            if resp.ok = false then
              .error ("API Error: " ++ toString resp.status ++ " " ++ resp.text)
            else if resp.respStatus = "ok" then
              match resp.statuses0 with
              | some st =>
                  if strTruthy st.error then
                    .ok { success := false, error := st.error }
                  else
                    .ok { success := true, orderId := some (wireOrderId resp) }
              | none => .ok { success := true, orderId := some (wireOrderId resp) }
            else
              .ok { success := false,
                    error := some (match resp.responseMsg with
                      | some m => if m = "" then "Unknown error" else m
                      | none => "Unknown error") }

/-- executeTrade: the catch-all wrapper — any thrown error becomes
{success := false, error := message}, so a TradeResult is always returned. -/
def executeTrade (env : ExecEnv) (coin : String) (isBuy : Bool)
    (sizeStr priceStr : String) (opts : OrderOptions) : TradeResult :=
  match executeTradeE env coin isBuy sizeStr priceStr opts with
  | .ok r => r
  | .error m => { success := false, error := some m }

/-- Concrete exchange reply used by witnesses: a resting order id 42. -/
def wResp : ExchangeResponse :=
  { ok := true, status := 200, text := "", respStatus := "ok",
    statuses0 := some { error := none, restingOid := some 42 },
    responseMsg := none }

/-- Concrete executeTrade environment used by witnesses. -/
def wExecEnv : ExecEnv :=
  { metaLookup := fun _ => none
    signTypedData := fun _ _ => .ok { r := "r0", s := "s0", v := 27 }
    fetch := .ok wResp
    now := 1700000000000 }

/-- Concrete order options used by witnesses. -/
def wOpts : OrderOptions :=
  { orderType := some "limit", price := some "100", reduceOnly := none,
    cloid := none }

/-- Concrete IV (12 bytes) used by witnesses. -/
def wIv : List Nat := List.replicate 12 0

/-- Concrete ciphertext used by witnesses. -/
def wCt : List Nat := [1, 2, 3]

/-- Concrete embedded key (32 bytes) used by witnesses. -/
def wKey : List Nat := List.replicate 32 5

end AV

/-! ## Theorems -/

namespace AV

/-- Helper: isDue unfolded into its three conjuncts. -/
theorem isDue_iff (now : Time) (cs : ScheduleRow) :
    isDue now cs = true ↔
      cs.enabled = true ∧
        cs.consecutive_errors < cs.max_consecutive_errors ∧
        (cs.next_run_at = none ∨ ∃ t, cs.next_run_at = some t ∧ t ≤ now) := by
  unfold isDue
  cases h : cs.next_run_at with
  | none => simp [h]
  | some t => simp [h, and_assoc]

end AV

/-- C1: no server-side operation ever sets a schedule's enabled flag to true:
the cron_schedules column default for enabled is false, and each of
get_due_schedules, record_schedule_success and record_schedule_error leaves
every disabled row disabled — every row that is enabled after an operation
came from a row with the same id that was already enabled before it. -/
theorem claim_C1 :
    (∀ sid uid now, (AV.mkScheduleRow sid uid now).enabled = false) ∧
    (∀ op db cs2, cs2 ∈ AV.applyOp op db → cs2.enabled = true →
      ∃ cs, cs ∈ db ∧ cs.id = cs2.id ∧ cs.enabled = true) := by
  refine ⟨fun _ _ _ => rfl, ?_⟩
  rintro op db cs2 hmem hen
  cases op with
  | getDue now => exact ⟨cs2, hmem, rfl, hen⟩
  | recordSuccess now sid =>
      obtain ⟨cs, hcs, heq⟩ := List.mem_map.1 hmem
      by_cases hid : cs.id = sid
      · rw [if_pos hid] at heq
        subst heq
        exact ⟨cs, hcs, rfl, hen⟩
      · rw [if_neg hid] at heq
        subst heq
        exact ⟨cs, hcs, rfl, hen⟩
  | recordError now sid msg =>
      obtain ⟨cs, hcs, heq⟩ := List.mem_map.1 hmem
      by_cases hid : cs.id = sid
      · rw [if_pos hid] at heq
        subst heq
        refine ⟨cs, hcs, rfl, ?_⟩
        by_cases hm : cs.max_consecutive_errors ≤ cs.consecutive_errors + 1
        · simp [AV.errorUpdate, hm] at hen
        · simpa [AV.errorUpdate, hm] using hen
      · rw [if_neg hid] at heq
        subst heq
        exact ⟨cs, hcs, rfl, hen⟩

/-- Witness for C1 at a concrete operation and table. -/
theorem claim_C1_witness :
    ∃ cs, cs ∈ [AV.exRowEnabled] ∧
      cs.id = (AV.successUpdate 5 AV.exRowEnabled).id ∧ cs.enabled = true :=
  claim_C1.2 (.recordSuccess 5 1) [AV.exRowEnabled]
    (AV.successUpdate 5 AV.exRowEnabled) (by decide) (by decide)

/-- C2: get_due_schedules returns (the projection of) a row iff the row is
enabled, its consecutive_errors are below max_consecutive_errors, and its
next_run_at is NULL or at most now; in particular a disabled row is never
returned. -/
theorem claim_C2 :
    (∀ now db e, e ∈ AV.get_due_schedules now db →
        ∃ cs, cs ∈ db ∧ e = AV.dueProjection cs ∧ cs.enabled = true ∧
          cs.consecutive_errors < cs.max_consecutive_errors ∧
          (cs.next_run_at = none ∨ ∃ t, cs.next_run_at = some t ∧ t ≤ now)) ∧
    (∀ now db cs, cs ∈ db → cs.enabled = true →
        cs.consecutive_errors < cs.max_consecutive_errors →
        (cs.next_run_at = none ∨ ∃ t, cs.next_run_at = some t ∧ t ≤ now) →
        AV.dueProjection cs ∈ AV.get_due_schedules now db) := by
  constructor
  · rintro now db e hmem
    obtain ⟨cs, hcs, heq⟩ := List.mem_map.1 hmem
    obtain ⟨hin, hdue⟩ := List.mem_filter.1 hcs
    obtain ⟨h1, h2, h3⟩ := (AV.isDue_iff now cs).1 hdue
    exact ⟨cs, hin, heq.symm, h1, h2, h3⟩
  · rintro now db cs hin h1 h2 h3
    exact List.mem_map_of_mem _
      (List.mem_filter.2 ⟨hin, (AV.isDue_iff now cs).2 ⟨h1, h2, h3⟩⟩)

/-- Witness for C2 at a concrete table: the enabled row with no next_run_at
is returned. -/
theorem claim_C2_witness :
    AV.dueProjection AV.exRowEnabled ∈ AV.get_due_schedules 0 [AV.exRowEnabled] :=
  claim_C2.2 0 [AV.exRowEnabled] AV.exRowEnabled (by decide) (by decide)
    (by decide) (Or.inl (by decide))

/-- C3: record_schedule_error stores the message, increments
consecutive_errors, disables the schedule when the incremented count reaches
max_consecutive_errors and otherwise leaves enabled unchanged, and always
advances next_run_at by interval_seconds; record_schedule_success resets
consecutive_errors to 0; consequently, starting from an enabled schedule with
consecutive_errors = 0 and max_consecutive_errors = N > 0, the schedule is
still enabled after fewer than N consecutive errors and disabled from the
N-th consecutive error on. -/
theorem claim_C3 :
    (∀ now msg cs,
        (AV.errorUpdate now msg cs).last_error = some msg ∧
        (AV.errorUpdate now msg cs).consecutive_errors = cs.consecutive_errors + 1 ∧
        (AV.errorUpdate now msg cs).next_run_at = some (now + cs.interval_seconds) ∧
        (cs.max_consecutive_errors ≤ cs.consecutive_errors + 1 →
            (AV.errorUpdate now msg cs).enabled = false) ∧
        (cs.consecutive_errors + 1 < cs.max_consecutive_errors →
            (AV.errorUpdate now msg cs).enabled = cs.enabled)) ∧
    (∀ now cs, (AV.successUpdate now cs).consecutive_errors = 0) ∧
    (∀ times msgs cs, cs.enabled = true → cs.consecutive_errors = 0 →
        0 < cs.max_consecutive_errors →
        (∀ k, k < cs.max_consecutive_errors →
            (AV.errSeq times msgs cs k).enabled = true) ∧
        (∀ k, cs.max_consecutive_errors ≤ k →
            (AV.errSeq times msgs cs k).enabled = false)) := by
  refine ⟨?_, fun _ _ => rfl, ?_⟩
  · intro now msg cs
    refine ⟨rfl, rfl, rfl, ?_, ?_⟩
    · intro h
      simp [AV.errorUpdate, h]
    · intro h
      simp [AV.errorUpdate, Nat.not_le.2 h]
  · intro times msgs cs hen h0 hpos
    have hcount : ∀ k, (AV.errSeq times msgs cs k).consecutive_errors = k := by
      intro k
      induction k with
      | zero => simpa [AV.errSeq] using h0
      | succ j ih => simp [AV.errSeq, AV.errorUpdate, ih]
    have hmax : ∀ k, (AV.errSeq times msgs cs k).max_consecutive_errors =
        cs.max_consecutive_errors := by
      intro k
      induction k with
      | zero => simp [AV.errSeq]
      | succ j ih => simp [AV.errSeq, AV.errorUpdate, ih]
    constructor
    · intro k hk
      induction k with
      | zero => simpa [AV.errSeq] using hen
      | succ j ih =>
          have hj : j < cs.max_consecutive_errors := Nat.lt_of_succ_lt hk
          have hprev := ih hj
          show (AV.errorUpdate (times j) (msgs j) (AV.errSeq times msgs cs j)).enabled = true
          have hlt : ¬ (AV.errSeq times msgs cs j).max_consecutive_errors ≤
              (AV.errSeq times msgs cs j).consecutive_errors + 1 := by
            rw [hcount j, hmax j]
            exact Nat.not_le.2 hk
          simpa [AV.errorUpdate, hlt] using hprev
    · intro k hk
      cases k with
      | zero => exact absurd (Nat.le_zero.1 hk) (Nat.ne_of_gt hpos)
      | succ j =>
          show (AV.errorUpdate (times j) (msgs j) (AV.errSeq times msgs cs j)).enabled = false
          have hge : (AV.errSeq times msgs cs j).max_consecutive_errors ≤
              (AV.errSeq times msgs cs j).consecutive_errors + 1 := by
            rw [hcount j, hmax j]
            exact hk
          simp [AV.errorUpdate, hge]

/-- Witness for C3: with max_consecutive_errors = 3, the schedule is still
enabled after 2 consecutive errors and disabled after the 3rd. -/
theorem claim_C3_witness :
    (AV.errSeq AV.wTimes AV.wMsgs AV.exRow3 2).enabled = true ∧
    (AV.errSeq AV.wTimes AV.wMsgs AV.exRow3 3).enabled = false := by
  have h := claim_C3.2.2 AV.wTimes AV.wMsgs AV.exRow3 (by decide) (by decide) (by decide)
  exact ⟨h.1 2 (by decide), h.2 3 (by decide)⟩

/-- C4: record_schedule_success sets last_run_at = now,
next_run_at = now + interval_seconds, increments run_count, resets
consecutive_errors and clears last_error; record_schedule_error performs the
same next_run_at advancement; and both table-level functions apply exactly
these row updates to the row whose id matches. -/
theorem claim_C4 :
    (∀ now cs,
        (AV.successUpdate now cs).last_run_at = some now ∧
        (AV.successUpdate now cs).next_run_at = some (now + cs.interval_seconds) ∧
        (AV.successUpdate now cs).run_count = cs.run_count + 1 ∧
        (AV.successUpdate now cs).consecutive_errors = 0 ∧
        (AV.successUpdate now cs).last_error = none) ∧
    (∀ now msg cs,
        (AV.errorUpdate now msg cs).next_run_at = some (now + cs.interval_seconds)) ∧
    (∀ now sid msg db cs, cs ∈ db → cs.id = sid →
        AV.successUpdate now cs ∈ AV.record_schedule_success now sid db ∧
        AV.errorUpdate now msg cs ∈ AV.record_schedule_error now sid msg db) := by
  refine ⟨fun _ _ => ⟨rfl, rfl, rfl, rfl, rfl⟩, fun _ _ _ => rfl, ?_⟩
  rintro now sid msg db cs hin hid
  constructor
  · have : AV.successUpdate now cs =
        (fun cs => if cs.id = sid then AV.successUpdate now cs else cs) cs := by
      simp [hid]
    rw [this]
    exact List.mem_map_of_mem _ hin
  · have : AV.errorUpdate now msg cs =
        (fun cs => if cs.id = sid then AV.errorUpdate now msg cs else cs) cs := by
      simp [hid]
    rw [this]
    exact List.mem_map_of_mem _ hin

/-- Witness for C4 at a concrete table and timestamp. -/
theorem claim_C4_witness :
    AV.successUpdate 7 AV.exRowEnabled ∈
      AV.record_schedule_success 7 1 [AV.exRowEnabled] ∧
    AV.errorUpdate 7 "boom" AV.exRowEnabled ∈
      AV.record_schedule_error 7 1 "boom" [AV.exRowEnabled] :=
  (claim_C4.2.2) 7 1 "boom" [AV.exRowEnabled] AV.exRowEnabled (by decide) (by decide)

namespace AV

/-- Helper: the WHERE clause of get_active_session unfolded. -/
theorem isActiveFor_iff (now : Time) (uid : Nat) (s : SessionRow) :
    isActiveFor now uid s = true ↔
      s.user_id = uid ∧ s.revoked = false ∧ now < s.expires_at := by
  simp [isActiveFor, Bool.and_eq_true, and_assoc]

/-- Helper: pickLatest returns none only on the empty list. -/
theorem pickLatest_eq_none (l : List SessionRow) (h : pickLatest l = none) :
    l = [] := by
  cases l with
  | nil => rfl
  | cons s rest => exact absurd h (by simp [pickLatest])

/-- Helper: pickLatest returns an element of the list. -/
theorem pickLatest_mem (l : List SessionRow) (b : SessionRow)
    (h : pickLatest l = some b) : b ∈ l := by
  induction l generalizing b with
  | nil => exact absurd h (by simp [pickLatest])
  | cons s rest ih =>
      rw [pickLatest, Option.some.injEq] at h
      cases hr : pickLatest rest with
      | none =>
          rw [hr, pickBetter] at h
          simp [← h]
      | some c =>
          rw [hr, pickBetter] at h
          by_cases hle : c.expires_at ≤ s.expires_at
          · rw [if_pos hle] at h
            simp [← h]
          · rw [if_neg hle] at h
            subst h
            exact List.mem_cons_of_mem _ (ih c hr)

/-- Helper: pickLatest returns an element whose expires_at is maximal. -/
theorem pickLatest_ge (l : List SessionRow) (b : SessionRow)
    (h : pickLatest l = some b) :
    ∀ x ∈ l, x.expires_at ≤ b.expires_at := by
  induction l generalizing b with
  | nil => intro x hx; exact absurd hx (by simp)
  | cons s rest ih =>
      rw [pickLatest, Option.some.injEq] at h
      cases hr : pickLatest rest with
      | none =>
          rw [hr, pickBetter] at h
          subst h
          intro x hx
          rcases List.mem_cons.1 hx with hx | hx
          · exact hx ▸ Nat.le_refl _
          · rw [pickLatest_eq_none rest hr] at hx
            exact absurd hx (by simp)
      | some c =>
          rw [hr, pickBetter] at h
          by_cases hle : c.expires_at ≤ s.expires_at
          · rw [if_pos hle] at h
            subst h
            intro x hx
            rcases List.mem_cons.1 hx with hx | hx
            · exact hx ▸ Nat.le_refl _
            · exact Nat.le_trans (ih c hr x hx) hle
          · rw [if_neg hle] at h
            subst h
            intro x hx
            rcases List.mem_cons.1 hx with hx | hx
            · exact hx ▸ Nat.le_of_lt (Nat.lt_of_not_le hle)
            · exact ih c hr x hx

/-- Helper: complete characterisation of a row returned by
get_active_session. -/
theorem get_active_session_spec (now : Time) (uid : Nat)
    (db : List SessionRow) (r : ActiveSessionRow)
    (h : get_active_session now uid db = some r) :
    ∃ s, s ∈ db ∧ r = sessionProjection s ∧ s.user_id = uid ∧
      s.revoked = false ∧ now < s.expires_at ∧
      ∀ s2 ∈ db, s2.user_id = uid → s2.revoked = false →
        now < s2.expires_at → s2.expires_at ≤ s.expires_at := by
  unfold get_active_session at h
  obtain ⟨b, hb, hr⟩ := Option.map_eq_some'.1 h
  obtain ⟨hmem, hact⟩ := List.mem_filter.1 (pickLatest_mem _ _ hb)
  obtain ⟨h1, h2, h3⟩ := (isActiveFor_iff now uid b).1 hact
  refine ⟨b, hmem, hr.symm, h1, h2, h3, ?_⟩
  intro s2 hs2 g1 g2 g3
  exact pickLatest_ge _ _ hb s2
    (List.mem_filter.2 ⟨hs2, (isActiveFor_iff now uid s2).2 ⟨g1, g2, g3⟩⟩)

end AV

/-- C6: get_active_session returns only a session of the requested owner
with revoked = false and expires_at strictly after now, and among such rows
one with the greatest expires_at; an expired or revoked session is never
returned, and after revokeSession(id) no row with that id is ever resolved
again. -/
theorem claim_C6 :
    (∀ now uid db r, AV.get_active_session now uid db = some r →
        ∃ s, s ∈ db ∧ r = AV.sessionProjection s ∧ s.user_id = uid ∧
          s.revoked = false ∧ now < s.expires_at ∧
          ∀ s2 ∈ db, s2.user_id = uid → s2.revoked = false →
            now < s2.expires_at → s2.expires_at ≤ s.expires_at) ∧
    (∀ now uid db sid r,
        AV.get_active_session now uid (AV.revokeSession sid db) = some r →
        r.session_id ≠ sid) := by
  refine ⟨AV.get_active_session_spec, ?_⟩
  intro now uid db sid r h hid
  obtain ⟨s, hmem, hr, _, hrev, _, _⟩ :=
    AV.get_active_session_spec now uid (AV.revokeSession sid db) r h
  obtain ⟨orig, horig, heq⟩ := List.mem_map.1 hmem
  by_cases ho : orig.id = sid
  · rw [if_pos ho] at heq
    rw [← heq] at hrev
    exact absurd hrev (by simp)
  · rw [if_neg ho] at heq
    subst heq
    rw [hr] at hid
    exact ho hid

/-- Witness for C6 at a concrete table: the row with the later expiry is
returned and dominates the other candidate. -/
theorem claim_C6_witness :
    ∃ s, s ∈ [AV.wSessionRow, AV.wSessionRow2] ∧
      AV.sessionProjection AV.wSessionRow2 = AV.sessionProjection s ∧
      s.user_id = 1 ∧ s.revoked = false ∧ 10 < s.expires_at ∧
      ∀ s2 ∈ [AV.wSessionRow, AV.wSessionRow2], s2.user_id = 1 →
        s2.revoked = false → 10 < s2.expires_at →
        s2.expires_at ≤ s.expires_at :=
  claim_C6.1 10 1 [AV.wSessionRow, AV.wSessionRow2]
    (AV.sessionProjection AV.wSessionRow2) (by decide)

/-- C5: getExecutionPassword always tries Tier C before Tier B: whenever the
owner's key record carries a truthy encrypted_password that decrypts to a
truthy password, the result is that password with tier 'persistent',
regardless of any session; the session tier is consulted only when Tier C
yields nothing, in which case a valid session with a truthy password yields
tier 'session'. -/
theorem claim_C5 :
    (∀ env uid ep pw, env.keyQuery = some (some ep) → ep ≠ [] →
        env.decryptStoredPassword ep = some pw → pw ≠ "" →
        AV.getExecutionPassword env uid =
          { password := some pw, tier := .persistent, error := none }) ∧
    (∀ env uid, AV.tierCPassword env = none →
        (AV.validateExecutionSession env uid).valid = true →
        AV.strTruthy (AV.validateExecutionSession env uid).password = true →
        AV.getExecutionPassword env uid =
          { password := (AV.validateExecutionSession env uid).password,
            tier := .session, error := none }) := by
  constructor
  · intro env uid ep pw hk hep hdec hpw
    have hempty : ep.isEmpty = false := by
      cases ep with
      | nil => exact absurd rfl hep
      | cons a t => rfl
    have hC : AV.tierCPassword env = some pw := by
      simp [AV.tierCPassword, hk, hempty, hdec, hpw]
    simp [AV.getExecutionPassword, hC]
  · intro env uid hC hval hpw
    simp [AV.getExecutionPassword, hC, hval, hpw]

/-- Witness for C5: in an environment where both a decryptable Tier C
password and a valid Tier B session exist, the persistent password wins. -/
theorem claim_C5_witness :
    AV.getExecutionPassword AV.wCustEnv 1 =
      { password := some "pc", tier := .persistent, error := none } :=
  claim_C5.1 AV.wCustEnv 1 [1] "pc" rfl (by decide) rfl (by decide)

/-- C7: session-token decoding splits the decoded bytes as
iv (first 12) ++ ciphertext ++ embedded key (last 32) and decrypts the
ciphertext with the embedded key and iv; validateExecutionSession returns
valid = false with no password whenever the decoded payload's owner differs
from the requested owner, and valid = true only when they match and
decryption succeeded. -/
theorem claim_C7 :
    (∀ env iv ct key, iv.length = 12 → key.length = 32 →
        AV.decryptSessionToken env (iv ++ ct ++ key) =
          match env.aesDecrypt key iv ct with
          | none => none
          | some pt => env.parsePayload pt) ∧
    (∀ env uid session payload, env.sessionRpcError = false →
        AV.get_active_session env.now uid env.sessionDb = some session →
        AV.decryptSessionToken env session.encrypted_session_token = some payload →
        payload.userId ≠ uid →
        AV.validateExecutionSession env uid =
          { valid := false, password := none,
            error := some "Session user mismatch", sessionId := none }) ∧
    (∀ env uid, (AV.validateExecutionSession env uid).valid = true →
        ∃ session payload,
          AV.get_active_session env.now uid env.sessionDb = some session ∧
          AV.decryptSessionToken env session.encrypted_session_token = some payload ∧
          payload.userId = uid ∧
          AV.validateExecutionSession env uid =
            { valid := true, password := some payload.password,
              error := none, sessionId := some session.session_id }) := by
  refine ⟨?_, ?_, ?_⟩
  · intro env iv ct key hiv hkey
    unfold AV.decryptSessionToken
    have hlen : (iv ++ ct ++ key).length - 32 = (iv ++ ct).length := by
      simp only [List.length_append, hkey]
      omega
    rw [hlen]
    have h1 : (iv ++ ct ++ key).take 12 = iv := by
      rw [List.append_assoc, ← hiv, List.take_left]
    have h2 : (iv ++ ct ++ key).drop (iv ++ ct).length = key :=
      List.drop_left _ _
    have h3 : ((iv ++ ct ++ key).take (iv ++ ct).length).drop 12 = ct := by
      rw [List.take_left, ← hiv, List.drop_left]
    rw [h1, h2, h3]
  · intro env uid session payload hrpc hga hdec hne
    have hlt : env.now < session.expires_at := by
      obtain ⟨s, _, hr, _, _, hexp, _⟩ :=
        AV.get_active_session_spec env.now uid env.sessionDb session hga
      rw [hr]
      exact hexp
    have hnlt : ¬ session.expires_at < env.now :=
      Nat.not_lt.2 (Nat.le_of_lt hlt)
    simp [AV.validateExecutionSession, hrpc, hga, hnlt, hdec, hne]
  · intro env uid hvalid
    by_cases hrpc : env.sessionRpcError = true
    · simp [AV.validateExecutionSession, hrpc] at hvalid
    · have hrpc2 : env.sessionRpcError = false := by
        simpa using hrpc
      cases hga : AV.get_active_session env.now uid env.sessionDb with
      | none => simp [AV.validateExecutionSession, hrpc2, hga] at hvalid
      | some session =>
          by_cases hexp : session.expires_at < env.now
          · simp [AV.validateExecutionSession, hrpc2, hga, hexp] at hvalid
          · cases hdec : AV.decryptSessionToken env session.encrypted_session_token with
            | none =>
                simp [AV.validateExecutionSession, hrpc2, hga, hexp, hdec] at hvalid
            | some payload =>
                by_cases hne : payload.userId ≠ uid
                · simp [AV.validateExecutionSession, hrpc2, hga, hexp, hdec, hne] at hvalid
                · have heq : payload.userId = uid := not_not.1 hne
                  refine ⟨session, payload, rfl, hdec, heq, ?_⟩
                  simp [AV.validateExecutionSession, hrpc2, hga, hexp, hdec, hne]

/-- Witness for C7 at concrete 12-byte IV, ciphertext and 32-byte key. -/
theorem claim_C7_witness :
    AV.decryptSessionToken AV.wCustEnv (AV.wIv ++ AV.wCt ++ AV.wKey) =
      match AV.wCustEnv.aesDecrypt AV.wKey AV.wIv AV.wCt with
      | none => none
      | some pt => AV.wCustEnv.parsePayload pt :=
  claim_C7.1 AV.wCustEnv AV.wIv AV.wCt AV.wKey (by decide) (by decide)

namespace AV

/-- Helper: beBytes produces exactly w bytes. -/
theorem beBytes_length (w : Nat) : ∀ n, (beBytes w n).length = w := by
  induction w with
  | zero => intro n; rfl
  | succ v ih => intro n; simp [beBytes, ih]

/-- Helper: folding beBytes big-endian digits reconstructs the value mod
256 ^ w. -/
theorem beBytes_foldl (w : Nat) : ∀ n a,
    (beBytes w n).foldl (fun acc b => acc * 256 + b) a = a * 256 ^ w + n % 256 ^ w := by
  induction w with
  | zero => intro n a; simp [beBytes, Nat.mod_one]
  | succ v ih =>
      intro n a
      rw [beBytes, List.foldl_append]
      simp only [List.foldl_cons, List.foldl_nil]
      rw [ih]
      have hm : n % 256 ^ (v + 1) = n % 256 + 256 * (n / 256 % 256 ^ v) := by
        rw [pow_succ, Nat.mul_comm]
        exact Nat.mod_mul
      rw [hm, pow_succ]
      ring

/-- Helper: a truthy optional string is present. -/
theorem strTruthy_some (o : Option String) (h : strTruthy o = true) :
    ∃ m, o = some m := by
  cases o with
  | none => exact absurd h (by simp [strTruthy])
  | some s => exact ⟨s, rfl⟩

end AV

set_option maxRecDepth 100000 in
/-- C8 counterexample: with a vault address supplied, the hashed byte string
still ends in the single 0x00 marker, not the vault-address bytes — at the
concrete action nil, vault address bytes [1, 2, 3] and nonce 0, the computed
connection id differs from the Keccak-256 of the byte string the claim
describes. -/
theorem claim_C8_counterexample :
    AV.actionHashFn .nil (some [1, 2, 3]) 0 ≠
      AV.keccak256 (AV.msgpackEncode .nil ++ AV.beBytes 8 0 ++ [1, 2, 3]) := by
  decide

/-- C8 (amended): the signed connection id equals Keccak-256 of the
MessagePack encoding of the action, followed by the nonce as an 8-byte
big-endian integer, followed by a single 0x00 byte in every case — also when
a vault address is supplied, since the vault branch is a placeholder that
appends the same 0x00 byte; the nonce bytes are 8 and big-endian, and the
hash is placed as connectionId in the phantom agent {source, connectionId}
passed to the EIP-712 typed-data signer under the fixed domain. -/
theorem claim_C8 :
    (∀ action vaultAddress nonce,
        AV.actionHashFn action vaultAddress nonce =
          AV.keccak256 (AV.msgpackEncode action ++ AV.beBytes 8 nonce ++ [0x00])) ∧
    (∀ n, n < 2 ^ 64 →
        (AV.beBytes 8 n).length = 8 ∧
        (AV.beBytes 8 n).foldl (fun acc b => acc * 256 + b) 0 = n) ∧
    (∀ sign action vaultAddress nonce,
        AV.signL1Action sign action vaultAddress nonce =
          sign AV.hlDomain
            { source := "b",
              connectionId := AV.actionHashFn action vaultAddress nonce }) := by
  refine ⟨?_, ?_, fun _ _ _ _ => rfl⟩
  · intro action v nonce
    cases v with
    | none => rfl
    | some a => rfl
  · intro n hn
    refine ⟨AV.beBytes_length 8 n, ?_⟩
    rw [AV.beBytes_foldl 8 n 0]
    have h256 : (256 : Nat) ^ 8 = 2 ^ 64 := by norm_num
    rw [Nat.zero_mul, Nat.zero_add, h256, Nat.mod_eq_of_lt hn]

/-- Witness for C8 at the concrete nonce 5. -/
theorem claim_C8_witness :
    (AV.beBytes 8 5).length = 8 ∧
    (AV.beBytes 8 5).foldl (fun acc b => acc * 256 + b) 0 = 5 :=
  claim_C8.2.1 5 (by decide)

namespace AV

/-- Helper: the trace of executeSchedule is one of its two literal forms. -/
theorem executeSchedule_trace (env : CronEnv) (s : DueScheduleRow) :
    (executeSchedule env s).2 =
      [.fetchKey s.user_id,
       .recordError s.schedule_id "No encrypted key found for user"] ∨
    (executeSchedule env s).2 =
      [.fetchKey s.user_id, .fetchSettings s.user_id,
       .runAnalysisStub s.user_id s.coins, .recordSuccess s.schedule_id] := by
  unfold executeSchedule
  cases env.keyLookup s.user_id with
  | none => left; rfl
  | some k => right; rfl

/-- Helper: no executeSchedule trace event is a due-schedules fetch, a
password resolution, or a cycle-executor invocation. -/
theorem executeSchedule_no_event (env : CronEnv) (s : DueScheduleRow)
    (e : CronEvent) (he : e ∈ (executeSchedule env s).2) :
    e ≠ .fetchDueSchedules ∧ (∀ uid, e ≠ .resolvePassword uid) ∧
      (∀ uid, e ≠ .invokeCycleExecutor uid) := by
  rcases executeSchedule_trace env s with h | h <;> rw [h] at he
  · simp only [List.mem_cons, List.not_mem_nil, or_false] at he
    rcases he with rfl | rfl <;> exact ⟨by simp, fun uid => by simp, fun uid => by simp⟩
  · simp only [List.mem_cons, List.not_mem_nil, or_false] at he
    rcases he with rfl | rfl | rfl | rfl <;>
      exact ⟨by simp, fun uid => by simp, fun uid => by simp⟩

end AV

/-- C9 counterexample: at a concrete environment with one due schedule and
an encrypted key on file, the trigger run processes the schedule and records
success, yet its full trace contains no getExecutionPassword call and no
cycle-executor invocation — credentials are never resolved via the session
custodian. -/
theorem claim_C9_counterexample :
    AV.cronTrigger AV.wCronEnv =
      (.executed [{ scheduleId := 1, userId := 2, success := true,
                    error := none, executedAt := 50 }],
       [.fetchDueSchedules, .fetchKey 2, .fetchSettings 2,
        .runAnalysisStub 2 [], .recordSuccess 1]) ∧
    ((AV.cronTrigger AV.wCronEnv).2.all (fun e =>
        match e with
        | .resolvePassword _ => false
        | .invokeCycleExecutor _ => false
        | _ => true)) = true := by
  decide

/-- C9 (amended): on an authenticated invocation the orchestrator fetches
the due schedules exactly once; for each due schedule it fetches the owner's
encrypted-key record — recording an error outcome for that schedule when the
key is missing — then fetches settings, runs the internal analysis-only stub
and records success; it never resolves execution credentials via
getExecutionPassword and never invokes the external cycle executor. -/
theorem claim_C9 :
    (∀ env, AV.cronAuthOk env = true →
        ((AV.cronTrigger env).2.count .fetchDueSchedules) = 1) ∧
    (∀ env s uid,
        AV.CronEvent.resolvePassword uid ∉ (AV.executeSchedule env s).2 ∧
        AV.CronEvent.invokeCycleExecutor uid ∉ (AV.executeSchedule env s).2) ∧
    (∀ env s, env.keyLookup s.user_id = none →
        AV.executeSchedule env s =
          ({ scheduleId := s.schedule_id, userId := s.user_id, success := false,
             error := some "No encrypted key found for user",
             executedAt := env.now },
           [.fetchKey s.user_id,
            .recordError s.schedule_id "No encrypted key found for user"])) ∧
    (∀ env s k, env.keyLookup s.user_id = some k →
        AV.executeSchedule env s =
          ({ scheduleId := s.schedule_id, userId := s.user_id, success := true,
             error := none, executedAt := env.now },
           [.fetchKey s.user_id, .fetchSettings s.user_id,
            .runAnalysisStub s.user_id s.coins,
            .recordSuccess s.schedule_id])) := by
  refine ⟨?_, ?_, ?_, ?_⟩
  · intro env hauth
    unfold AV.cronTrigger
    rw [if_pos hauth]
    by_cases hdue : (AV.get_due_schedules env.now env.scheduleDb).isEmpty = true
    · rw [if_pos hdue]
      rfl
    · rw [if_neg hdue]
      have h0 : (((AV.get_due_schedules env.now env.scheduleDb).map
          (AV.executeSchedule env)).map Prod.snd).flatten.count
            AV.CronEvent.fetchDueSchedules = 0 := by
        rw [List.count_eq_zero]
        intro hmem
        obtain ⟨l, hl, hel⟩ := List.mem_flatten.1 hmem
        obtain ⟨run, hrun, hsnd⟩ := List.mem_map.1 hl
        obtain ⟨s, hs, hre⟩ := List.mem_map.1 hrun
        rw [← hsnd, ← hre] at hel
        exact (AV.executeSchedule_no_event env s _ hel).1 rfl
      simp only [List.count_cons_self, h0]
  · intro env s uid
    constructor
    · intro hmem
      exact (AV.executeSchedule_no_event env s _ hmem).2.1 uid rfl
    · intro hmem
      exact (AV.executeSchedule_no_event env s _ hmem).2.2 uid rfl
  · intro env s h
    unfold AV.executeSchedule
    rw [h]
  · intro env s k h
    unfold AV.executeSchedule
    rw [h]

/-- Witness for C9 at the concrete authenticated environment. -/
theorem claim_C9_witness :
    ((AV.cronTrigger AV.wCronEnv).2.count .fetchDueSchedules) = 1 :=
  claim_C9.1 AV.wCronEnv (by decide)

namespace AV

/-- Helper: every Except.ok result of executeTradeE's try body has the
claimed shape — a success carries the wire order id of the fetched response
and no error, a failure carries an error message and no order id. -/
theorem executeTradeE_ok_shape (env : ExecEnv) (coin : String) (isBuy : Bool)
    (sizeStr priceStr : String) (opts : OrderOptions) (r : TradeResult)
    (h : executeTradeE env coin isBuy sizeStr priceStr opts = .ok r) :
    (r.success = true → r.error = none ∧
        ∃ resp, env.fetch = .ok resp ∧ r.orderId = some (wireOrderId resp)) ∧
    (r.success = false → r.orderId = none ∧ ∃ m, r.error = some m) := by
  unfold executeTradeE at h
  split at h
  · exact Except.noConfusion h
  · split at h
    · exact Except.noConfusion h
    · split at h
      · exact Except.noConfusion h
      · rename_i resp hfetch
        split at h
        · exact Except.noConfusion h
        · split at h
          · split at h
            · rename_i st hst
              split at h
              · rename_i htr
                injection h with h2
                subst h2
                constructor
                · intro hs; exact absurd hs (by simp)
                · intro _
                  exact ⟨rfl, strTruthy_some st.error htr⟩
              · injection h with h2
                subst h2
                constructor
                · intro _; exact ⟨rfl, resp, hfetch, rfl⟩
                · intro hs; exact absurd hs (by simp)
            · injection h with h2
              subst h2
              constructor
              · intro _; exact ⟨rfl, resp, hfetch, rfl⟩
              · intro hs; exact absurd hs (by simp)
          · injection h with h2
            subst h2
            constructor
            · intro hs; exact absurd hs (by simp)
            · intro _; exact ⟨rfl, _, rfl⟩

end AV

/-- C10: executeTrade is total over TradeResult — every thrown internal
failure (unresolvable asset index, signing exception, network failure,
non-2xx response) is caught and returned as success = false with an error
message; a response-level error status also yields success = false with the
reported message; and success = true always carries an orderId, namely the
resting order id of the response or 'filled'. -/
theorem claim_C10 :
    (∀ env coin isBuy sizeStr priceStr opts m,
        AV.executeTradeE env coin isBuy sizeStr priceStr opts = .error m →
        AV.executeTrade env coin isBuy sizeStr priceStr opts =
          { success := false, error := some m }) ∧
    (∀ env coin isBuy sizeStr priceStr opts,
        ((AV.executeTrade env coin isBuy sizeStr priceStr opts).success = true →
            (AV.executeTrade env coin isBuy sizeStr priceStr opts).error = none ∧
            ∃ resp, env.fetch = .ok resp ∧
              (AV.executeTrade env coin isBuy sizeStr priceStr opts).orderId =
                some (AV.wireOrderId resp)) ∧
        ((AV.executeTrade env coin isBuy sizeStr priceStr opts).success = false →
            (AV.executeTrade env coin isBuy sizeStr priceStr opts).orderId = none ∧
            ∃ m, (AV.executeTrade env coin isBuy sizeStr priceStr opts).error =
              some m)) := by
  constructor
  · intro env coin isBuy sizeStr priceStr opts m h
    unfold AV.executeTrade
    rw [h]
  · intro env coin isBuy sizeStr priceStr opts
    unfold AV.executeTrade
    cases hE : AV.executeTradeE env coin isBuy sizeStr priceStr opts with
    | error m =>
        constructor
        · intro hs; exact absurd hs (by simp)
        · intro _; exact ⟨rfl, m, rfl⟩
    | ok r =>
        exact AV.executeTradeE_ok_shape env coin isBuy sizeStr priceStr opts r hE

/-- Witness for C10 at a concrete successful trade: the resting order id 42
is reported. -/
theorem claim_C10_witness :
    (AV.executeTrade AV.wExecEnv "BTC" true "1" "100" AV.wOpts).error = none ∧
    ∃ resp, AV.wExecEnv.fetch = .ok resp ∧
      (AV.executeTrade AV.wExecEnv "BTC" true "1" "100" AV.wOpts).orderId =
        some (AV.wireOrderId resp) :=
  (claim_C10.2 AV.wExecEnv "BTC" true "1" "100" AV.wOpts).1 (by decide)
